import Mathlib

/-!
Verification of the audio-cropper core (`src/app.py`) against its
natural-language specification.

Shallow embedding conventions:
* Python floats are modelled as rationals (`ℚ`); the numeric claims under
  study concern exact arithmetic (means, 2-decimal rounding, comparisons,
  millisecond conversion), not IEEE rounding.
* External collaborators (librosa decoding, the OpenCV image pipeline,
  pydub's codecs, werkzeug's `secure_filename`, the filesystem) are
  modelled as explicit parameters/oracles; everything `app.py` itself
  computes is translated directly.
* A Python function that can raise is modelled with `Option`/`Except`.
-/

namespace AudioCropper

/-- Python `int(q)` on a rational: truncation toward zero. -/
def pyTrunc (q : ℚ) : ℤ := if 0 ≤ q then ⌊q⌋ else ⌈q⌉

/-- Python `round(q)`: round half to even (banker's rounding). -/
def pyRound (q : ℚ) : ℤ :=
  if q - ⌊q⌋ = 1/2 then (if 2 ∣ ⌊q⌋ then ⌊q⌋ else ⌊q⌋ + 1) else round q

/-- Python `round(q, 2)`: round to two decimal places, ties to even. -/
def round2 (q : ℚ) : ℚ := (pyRound (q * 100) : ℚ) / 100

/-- `numpy.mean` of a list of rationals. -/
def npMean (xs : List ℚ) : ℚ := xs.sum / xs.length

/-- `calculate_weighted_average_interval` (`src/app.py` lines 124-139).
An interval entry is a pair of optional bounds (`None` = absent bound).
Source shape:
`starts = [i[0] for i in intervals if i[0] is not None]`,
`ends   = [i[1] for i in intervals if i[1] is not None]`;
default `(5.5, 6.5)` when the list is empty or either projection is empty,
otherwise the rounded means of the two projections. -/
def calculate_weighted_average_interval (intervals : List (Option ℚ × Option ℚ)) : ℚ × ℚ :=
  if intervals = [] then (11/2, 13/2)
  else if (intervals.map Prod.fst).reduceOption = [] ∨
      (intervals.map Prod.snd).reduceOption = [] then (11/2, 13/2)
  else (round2 (npMean (intervals.map Prod.fst).reduceOption),
        round2 (npMean (intervals.map Prod.snd).reduceOption))

/-- Modelled from the spec: "Discard absent/invalid entries (either bound
missing) before aggregating."  Entry-wise discarding, used only to compare
the spec's words with the source's per-bound filtering. -/
def specDiscardInvalid (intervals : List (Option ℚ × Option ℚ)) :
    List (Option ℚ × Option ℚ) :=
  intervals.filter fun p => p.1.isSome && p.2.isSome

theorem pyRound_intCast (n : ℤ) : pyRound (n : ℚ) = n := by
  unfold pyRound
  norm_num

theorem round2_of_mul_eq (q : ℚ) (n : ℤ) (h : q * 100 = (n : ℚ)) :
    round2 q = (n : ℚ) / 100 := by
  unfold round2
  rw [h, pyRound_intCast]

/-! ## AudioBuffer model (pydub `AudioSegment`, 0.25.x)

`pydub` segments are indexed and measured in whole milliseconds while the
payload is a sequence of frames (samples) at `frameRate` frames per second.
`crop_and_split_audio` only ever slices with nonnegative millisecond
indices (`audio[:ms]`, `audio[ms:]`), which is the part of the collaborator
modelled here, following the library's `__len__`/`__getitem__`:
`len(audio)` is `round(1000 * frame_count / frame_rate)`, the nearest
whole millisecond; a slice clamps both positions to `len(audio)` — an
open right end resolves to `len(audio)` itself — maps each millisecond
position to the frame index `int(ms * frame_rate / 1000)`, and yields the
frames between the two cut indices, padded with silence up to the expected
span when the end index runs past the stored frames (so the
sub-millisecond tail of a buffer is dropped, or silence appears, whenever
`1000 * frame_count / frame_rate` is not a whole number of milliseconds).
Concatenation (`+`) appends the payloads with no crossfade. -/

structure AudioSegment where
  frameRate : ℕ
  data : List ℚ
  deriving DecidableEq

/-- `len(audio)`: `round(1000 * frame_count / frame_rate)`, the duration
rounded to the nearest whole millisecond. -/
def lenMs (a : AudioSegment) : ℕ :=
  (pyRound (1000 * (a.data.length : ℚ) / (a.frameRate : ℚ))).toNat

/-- Millisecond position to frame index, `int(ms * (frame_rate / 1000.0))`. -/
def msToFrame (rate ms : ℕ) : ℕ := ms * rate / 1000

/-- The frames of a slice between the cut indices `fs` and `fe`: the stored
frames in `[fs, fe)`, padded with silence up to the expected span when
`fe` runs past the end of the data. -/
def sliceFrames (data : List ℚ) (fs fe : ℕ) : List ℚ :=
  (data.take fe).drop fs ++
    List.replicate (fe - fs - ((data.take fe).drop fs).length) 0

/-- `audio[startMs:endMs]`: both positions are clamped to `len(audio)` and
mapped to frame indices. -/
def sliceMs (a : AudioSegment) (startMs endMs : ℕ) : AudioSegment :=
  ⟨a.frameRate,
    sliceFrames a.data (msToFrame a.frameRate (min startMs (lenMs a)))
      (msToFrame a.frameRate (min endMs (lenMs a)))⟩

/-- `audio[:ms]` for a nonnegative millisecond index. -/
def sliceTo (a : AudioSegment) (ms : ℕ) : AudioSegment := sliceMs a 0 ms

/-- `audio[ms:]` for a nonnegative millisecond index: the open right end
resolves through `len(audio)`. -/
def sliceFrom (a : AudioSegment) (ms : ℕ) : AudioSegment := sliceMs a ms (lenMs a)

/-- `x + y` on segments: concatenation with no crossfade. -/
def concatSeg (x y : AudioSegment) : AudioSegment := ⟨x.frameRate, x.data ++ y.data⟩

theorem pyRound_natCast (n : ℕ) : pyRound (n : ℚ) = (n : ℤ) := by
  have h := pyRound_intCast (n : ℤ)
  rwa [Int.cast_natCast] at h

theorem floor_le_pyRound (q : ℚ) : ⌊q⌋ ≤ pyRound q := by
  unfold pyRound
  split
  · split
    · exact le_refl _
    · omega
  · calc ⌊q⌋ ≤ ⌊q + 1/2⌋ := Int.floor_le_floor (by linarith)
      _ = round q := (round_eq q).symm

/-- When the duration is a whole number of milliseconds, `len(audio)` is
exact. -/
theorem lenMs_exact (a : AudioSegment) (n : ℕ) (hr : 0 < a.frameRate)
    (h : 1000 * a.data.length = n * a.frameRate) : lenMs a = n := by
  unfold lenMs
  have hq : 1000 * (a.data.length : ℚ) / (a.frameRate : ℚ) = (n : ℚ) := by
    rw [div_eq_iff (by exact_mod_cast hr.ne')]
    exact_mod_cast h
  rw [hq, pyRound_natCast, Int.toNat_natCast]

/-- A slice always spans exactly the frames between its two cut indices. -/
theorem sliceFrames_length (data : List ℚ) (fs fe : ℕ) :
    (sliceFrames data fs fe).length = fe - fs := by
  unfold sliceFrames
  simp only [List.length_append, List.length_replicate, List.length_drop, List.length_take]
  omega

/-- With the end cut inside the stored frames, no silence is padded. -/
theorem sliceFrames_of_le (data : List ℚ) (fs fe : ℕ) (h : fe ≤ data.length) :
    sliceFrames data fs fe = (data.take fe).drop fs := by
  unfold sliceFrames
  have hl : ((data.take fe).drop fs).length = fe - fs := by
    simp only [List.length_drop, List.length_take]
    omega
  rw [hl]
  simp

/-- The excise step of `crop_and_split_audio` (`src/app.py` lines 150-157):
`before_switch = audio[:start_ms]`, `after_switch = audio[end_ms:]`,
`cropped_audio = before_switch + after_switch` with
`start_ms = int(start_time*1000)`, `end_ms = int(end_time*1000)`. -/
def exciseInterval (audio : AudioSegment) (start_time end_time : ℚ) : AudioSegment :=
  concatSeg (sliceTo audio (pyTrunc (start_time * 1000)).toNat)
    (sliceFrom audio (pyTrunc (end_time * 1000)).toNat)

/-- The halving step of `crop_and_split_audio` (`src/app.py` lines 159-162):
`mid_point = len(cropped_audio) // 2`, first half `[:mid_point]`, second
half `[mid_point:]`. -/
def splitHalves (cropped : AudioSegment) : AudioSegment × AudioSegment :=
  (sliceTo cropped (lenMs cropped / 2), sliceFrom cropped (lenMs cropped / 2))

/-- Result of `crop_and_split_audio`: the source returns `False` on any
exception and `True` after exporting the two halves. -/
inductive SplitOutcome where
  | failed : SplitOutcome
  | success : AudioSegment → AudioSegment → SplitOutcome
  deriving DecidableEq

/-- Python strings, embedded as their character sequences. -/
abbrev PyStr := List Char

/-- Python `s.endswith(suff)`. -/
def pyEndsWith (s suff : PyStr) : Bool := suff.isSuffixOf s

/-- The characters of `'.mp3'`. -/
def mp3Suffix : PyStr := ['.', 'm', 'p', '3']

/-- `crop_and_split_audio` (`src/app.py` lines 141-182).  The pydub
decoders are external collaborators, so their outcomes for this path are
parameters: `mp3Audio` is what `AudioSegment.from_mp3` would yield,
`wavAudio` what `AudioSegment.from_wav` would yield (`none` = the decoder
raises); `exportOk` is whether the two `export` calls succeed.  The source
selects the decoder by `audio_path.endswith('.mp3')`, performs no
validation of the interval, and catches every exception, returning
`False`. -/
def crop_and_split_audio (audio_path : PyStr) (mp3Audio wavAudio : Option AudioSegment)
    (start_time end_time : ℚ) (exportOk : Bool) : SplitOutcome :=
  match (if pyEndsWith audio_path mp3Suffix then mp3Audio else wavAudio) with
  | none => .failed
  | some audio =>
      let halves := splitHalves (exciseInterval audio start_time end_time)
      if exportOk then .success halves.1 halves.2 else .failed

/-- Python `filename.rsplit('.', 1)[1]` when `'.' in filename`: the
characters after the last dot. -/
def extAfterLastDot (filename : PyStr) : PyStr :=
  (filename.reverse.takeWhile (fun c => c != '.')).reverse

/-- `allowed_file` (`src/app.py` lines 33-37): `'.' in filename` and the
extension after the last dot, lower-cased, is one of `wav`, `mp3`, `flac`,
`aac`. -/
def allowed_file (filename : PyStr) : Bool :=
  filename.contains '.' &&
    [['w', 'a', 'v'], ['m', 'p', '3'], ['f', 'l', 'a', 'c'], ['a', 'a', 'c']].contains
      ((extAfterLastDot filename).map Char.toLower)

/-! ## Click Detector (`detect_switch_noise`, `src/app.py` lines 74-122)

The OpenCV chain (normalize → GaussianBlur → Otsu threshold → morphological
opening → `findContours`) is an external collaborator.  What the source
consumes from it is the list of contours, each queried for `contourArea`
and `boundingRect`; any of those calls may raise.  The chain is therefore
modelled as an oracle from the extracted region of interest to either a
raised exception or a contour list.  Everything around the chain — nearest
frame indices via `np.argmin`, the degenerate-window guard, the ROI
extraction, mapping the bounding box back to times, the clamping, and the
`except` fallback — is `app.py` code and is translated directly. -/

/-- A contour as the source consumes it: `cv2.contourArea` value and the
horizontal extent `x, w` of `cv2.boundingRect`. -/
structure Contour where
  area : ℚ
  x : ℕ
  w : ℕ
  deriving DecidableEq

/-- Outcome of the OpenCV image-processing chain on the ROI: `fail` models
a raised exception, `found` the `findContours` result. -/
inductive CvResult where
  | fail : CvResult
  | found : List Contour → CvResult

/-- `max(contours, key=cv2.contourArea)`: Python `max` keeps the earliest
of equally-large candidates. -/
def maxByArea (best : Contour) : List Contour → Contour
  | [] => best
  | c :: cs => maxByArea (if best.area < c.area then c else best) cs

/-- First index minimising `|ts[i] - t|`, i.e. `np.argmin(np.abs(ts - t))`
(`np.argmin` returns the first occurrence of the minimum). -/
def argminAbsGo (t : ℚ) (bi : ℕ) (bv : ℚ) (i : ℕ) : List ℚ → ℕ
  | [] => bi
  | x :: xs => if |x - t| < |bv - t| then argminAbsGo t i x (i + 1) xs
               else argminAbsGo t bi bv (i + 1) xs

/-- `np.argmin(np.abs(ts - t))` on a nonempty list (`0` on `[]`, where the
real `np.argmin` raises `ValueError`; the caller catches that case). -/
def argminAbs (t : ℚ) : List ℚ → ℕ
  | [] => 0
  | x :: xs => argminAbsGo t 0 x 1 xs

/-- `mel_spec_db[:, si:ei]`: every frequency row restricted to the frame
columns `[si, ei)`. -/
def roiOf (mel : List (List ℚ)) (si ei : ℕ) : List (List ℚ) :=
  mel.map fun row => (row.take ei).drop si

/-- `detected_start = max(4.5, min(detected_start, 6.0))` (line 115). -/
def clampStart (ds : ℚ) : ℚ := max (9/2) (min ds 6)

/-- `detected_end = max(detected_start + 0.5, min(detected_end, 7.5))`
(line 116). -/
def clampEnd (ds de : ℚ) : ℚ := max (ds + 1/2) (min de (15/2))

/-- `detect_switch_noise` (`src/app.py` lines 74-122).  Returns `none` for
the `(None, None)` degenerate-window result, otherwise `some (start, end)`.
The `try/except` of the source catches every exception and returns the
coarse window `(start_time, end_time)`; the exceptional paths are the
OpenCV chain (`cv roi = .fail`), `np.argmin` on an empty time axis, and an
out-of-range `time_frames[...]` access (numpy `IndexError`). -/
def detect_switch_noise (cv : List (List ℚ) → CvResult) (mel : List (List ℚ))
    (time_frames : List ℚ) (start_time end_time : ℚ) : Option (ℚ × ℚ) :=
  match time_frames with
  | [] => some (start_time, end_time)
  | tf0 :: tfrest =>
      let tf := tf0 :: tfrest
      let start_idx := argminAbs start_time tf
      let end_idx := argminAbs end_time tf
      if end_idx ≤ start_idx then none
      else
        match cv (roiOf mel start_idx end_idx) with
        | .fail => some (start_time, end_time)
        | .found [] => some (start_time, end_time)
        | .found (c :: cs) =>
            let b := maxByArea c cs
            if h : start_idx + b.x + b.w < tf.length then
              let ds := tf.get ⟨start_idx + b.x, by omega⟩
              let de := tf.get ⟨start_idx + b.x + b.w, h⟩
              some (clampStart ds, clampEnd (clampStart ds) de)
            else some (start_time, end_time)

/-! ## Upload handler and batch state (`upload_files`, `process_batch`)

The shared mutable state of the Flask app: the `batch_data` and
`spectrogram_cache` dictionaries (modelled as association lists, since the
source only inserts fresh timestamped keys and iterates) and the two
on-disk folders (modelled as lists of file names).  `generate_mel_spectrogram`
wraps librosa (external); its per-file outcome is carried on the uploaded
file record (`none` = the source's `(None, None, None)` failure result).
`secure_filename` (werkzeug) is modelled as the identity on the already
plain names used here, and `datetime.now().strftime(...)` as the `ts`
prefix parameter. -/

/-- Value stored in `batch_data` for one uploaded file
(`src/app.py` lines 232-239). -/
structure FileData where
  filename : PyStr
  unique_filename : PyStr
  file_path : PyStr
  detected_interval : Option (ℚ × ℚ)
  duration : ℚ
  deriving DecidableEq

/-- Value stored in `spectrogram_cache` (`src/app.py` lines 242-246). -/
structure SpecCache where
  mel_spec_db : List (List ℚ)
  time_frames : List ℚ
  sr : ℕ
  deriving DecidableEq

/-- The app's shared mutable state. -/
structure ServerState where
  batch_data : List (PyStr × FileData)
  spectrogram_cache : List (PyStr × SpecCache)
  uploadFolder : List PyStr
  specFolder : List PyStr
  deriving DecidableEq

/-- One file of an upload request, together with the outcome the external
`generate_mel_spectrogram` collaborator produces for it. -/
structure UploadFile where
  filename : PyStr
  spec : Option (List (List ℚ) × List ℚ × ℕ)

/-- One entry of the `results` list returned by `upload_files`
(`src/app.py` lines 249-255). -/
structure ResultEntry where
  filename : PyStr
  unique_filename : PyStr
  detected_start : ℚ
  detected_end : ℚ
  duration : ℚ
  deriving DecidableEq

/-- How an upload request ends without a success payload: the two `400`
responses, and the uncaught `TypeError` that `round(None, 2)` raises at
line 252 when `detect_switch_noise` returned `(None, None)`. -/
inductive UploadError where
  | noFiles : UploadError
  | typeError : UploadError
  | noValid : UploadError
  deriving DecidableEq

/-- The success payload of `upload_files` (`src/app.py` lines 263-271). -/
structure UploadResponse where
  files : List ResultEntry
  weighted_average : ℚ × ℚ
  total_files : ℕ
  deriving DecidableEq

/-- `len(time_frames) * (time_frames[1] - time_frames[0]) if
len(time_frames) > 1 else 12.0` (line 238). -/
def durationOf (tf : List ℚ) : ℚ :=
  if 1 < tf.length then (tf.getD 1 0 - tf.getD 0 0) * tf.length else 12

/-- The characters of `'.png'`. -/
def pngSuffix : PyStr := ['.', 'p', 'n', 'g']

/-- The characters of `'uploads/'` (the upload folder path prefix). -/
def uploadsDir : PyStr := ['u', 'p', 'l', 'o', 'a', 'd', 's', '/']

/-- The per-file loop of `upload_files` (`src/app.py` lines 213-255),
threading the mutated globals, the `results` list and the `intervals`
list.  A file failing `allowed_file` is skipped; a file whose spectrogram
generation failed is saved but contributes nothing further; otherwise the
detection result is stored in `batch_data`/`spectrogram_cache` and appended
to `intervals`, and then `round(start_time, 2)` either extends `results`
or, when the detection was `(None, None)`, raises `TypeError`, aborting
the loop with all mutations so far kept. -/
def processFiles (cv : List (List ℚ) → CvResult) (ts : PyStr) (st : ServerState)
    (results : List ResultEntry) (intervals : List (Option ℚ × Option ℚ)) :
    List UploadFile → ServerState × Except UploadError (List ResultEntry × List (Option ℚ × Option ℚ))
  | [] => (st, .ok (results, intervals))
  | f :: fs =>
      if allowed_file f.filename then
        let uniq := ts ++ f.filename
        let st1 : ServerState := { st with uploadFolder := st.uploadFolder ++ [uniq] }
        match f.spec with
        | none => processFiles cv ts st1 results intervals fs
        | some (mel, tf, sr) =>
            let st2 : ServerState := { st1 with specFolder := st1.specFolder ++ [uniq ++ pngSuffix] }
            let det := detect_switch_noise cv mel tf 5 7
            let fd : FileData :=
              ⟨f.filename, uniq, uploadsDir ++ uniq, det, durationOf tf⟩
            let st3 : ServerState :=
              { st2 with batch_data := st2.batch_data ++ [(uniq, fd)],
                         spectrogram_cache := st2.spectrogram_cache ++ [(uniq, ⟨mel, tf, sr⟩)] }
            let intervals2 := intervals ++ [(det.map Prod.fst, det.map Prod.snd)]
            match det with
            | none => (st3, .error .typeError)
            | some (s, e) =>
                processFiles cv ts st3
                  (results ++ [⟨f.filename, uniq, round2 s, round2 e, round2 (durationOf tf)⟩])
                  intervals2 fs
      else processFiles cv ts st results intervals fs

/-- `upload_files` (`src/app.py` lines 189-271).  The guard responses at
lines 194-199 leave the state untouched; otherwise both dictionaries are
reassigned to `{}` and both folders are wiped (lines 201-208) before the
per-file loop runs, and the success payload reports the consensus of this
request's `intervals` only. -/
def upload_files (cv : List (List ℚ) → CvResult) (ts : PyStr) (st : ServerState)
    (files : List UploadFile) : ServerState × Except UploadError UploadResponse :=
  if files.isEmpty || files.all (fun f => f.filename.isEmpty) then (st, .error .noFiles)
  else
    match processFiles cv ts ⟨[], [], [], []⟩ [] [] files with
    | (st', .error e) => (st', .error e)
    | (st', .ok (results, intervals)) =>
        if results.isEmpty then (st', .error .noValid)
        else (st', .ok ⟨results, calculate_weighted_average_interval intervals, results.length⟩)

/-- `process_batch` (`src/app.py` lines 302-356): iterates the current
`batch_data`, calling `crop_and_split_audio` per entry with the confirmed
interval, and tallies processed vs failed source filenames.  The per-entry
decoder outcomes and export success are external, supplied by the
`mp3Of`/`wavOf`/`exportOf` oracles keyed on the stored file path. -/
def process_batch (mp3Of wavOf : PyStr → Option AudioSegment) (exportOf : PyStr → Bool)
    (st : ServerState) (start_time end_time : ℚ) : List PyStr × List PyStr :=
  st.batch_data.foldl
    (fun acc p =>
      match crop_and_split_audio p.2.file_path (mp3Of p.2.file_path) (wavOf p.2.file_path)
          start_time end_time (exportOf p.2.file_path) with
      | .success _ _ => (acc.1 ++ [p.2.filename], acc.2)
      | .failed => (acc.1, acc.2 ++ [p.2.filename]))
    ([], [])

/-! ## Supporting lemmas -/

theorem reduceOption_map_some {α β : Type} (f : α → β) (l : List α) :
    (l.map fun a => some (f a)).reduceOption = l.map f := by
  induction l with
  | nil => rfl
  | cons a l ih => simp [List.reduceOption_cons_of_some, ih]

/-! ## C2: per-bound filtering in the Consensus Aggregator -/

/-- C2, counterexample.  The claim says an entry with a missing bound is
discarded in its entirety, so aggregating `[(5,6), (None,8)]` would equal
aggregating `[(5,6)]` alone; but the source filters each bound
independently, so the `8` of the half-missing entry contributes to the
averaged end: the results are `(5, 7)` versus `(5, 6)`. -/
theorem C2_entrywise_discard_refuted :
    calculate_weighted_average_interval [(some 5, some 6), (none, some 8)] = (5, 7) ∧
    calculate_weighted_average_interval
        (specDiscardInvalid [(some 5, some 6), (none, some 8)]) = (5, 6) ∧
    ((5 : ℚ), (7 : ℚ)) ≠ ((5 : ℚ), (6 : ℚ)) := by
  refine ⟨?_, ?_, by norm_num⟩
  · simp only [calculate_weighted_average_interval, npMean, List.reduceOption]
    simp
    norm_num
    rw [round2_of_mul_eq 5 500 (by norm_num), round2_of_mul_eq 7 700 (by norm_num)]
    norm_num
  · simp only [specDiscardInvalid]
    simp only [calculate_weighted_average_interval, npMean, List.reduceOption]
    simp
    rw [round2_of_mul_eq 5 500 (by norm_num), round2_of_mul_eq 6 600 (by norm_num)]
    norm_num

/-- C2, amended.  `calculate_weighted_average_interval` filters the two
bounds independently (`src/app.py` lines 130-131): an entry missing both
bounds is indeed discarded entirely (first conjunct), but an entry missing
only one bound still contributes its present bound to that side's average
(second and third conjuncts), contrary to entry-wise discarding. -/
theorem C2_bounds_filtered_independently :
    (∀ l1 l2 : List (Option ℚ × Option ℚ),
      calculate_weighted_average_interval (l1 ++ (none, none) :: l2) =
        calculate_weighted_average_interval (l1 ++ l2)) ∧
    (∀ (s : ℚ) (l : List (Option ℚ × Option ℚ)),
      (l.map Prod.snd).reduceOption ≠ [] →
      calculate_weighted_average_interval ((some s, none) :: l) =
        (round2 (npMean (s :: (l.map Prod.fst).reduceOption)),
         round2 (npMean (l.map Prod.snd).reduceOption))) ∧
    (∀ (e : ℚ) (l : List (Option ℚ × Option ℚ)),
      (l.map Prod.fst).reduceOption ≠ [] →
      calculate_weighted_average_interval ((none, some e) :: l) =
        (round2 (npMean (l.map Prod.fst).reduceOption),
         round2 (npMean (e :: (l.map Prod.snd).reduceOption)))) := by
  refine ⟨?_, ?_, ?_⟩
  · intro l1 l2
    by_cases h : l1 ++ l2 = []
    · rw [List.append_eq_nil] at h
      rw [h.1, h.2]
      simp [calculate_weighted_average_interval, List.reduceOption]
    · unfold calculate_weighted_average_interval
      rw [if_neg (by simp), if_neg h]
      have hf : ((l1 ++ (none, none) :: l2).map Prod.fst).reduceOption =
          ((l1 ++ l2).map Prod.fst).reduceOption := by
        simp [List.reduceOption_append, List.reduceOption_cons_of_none]
      have hs : ((l1 ++ (none, none) :: l2).map Prod.snd).reduceOption =
          ((l1 ++ l2).map Prod.snd).reduceOption := by
        simp [List.reduceOption_append, List.reduceOption_cons_of_none]
      rw [hf, hs]
  · intro s l hl
    unfold calculate_weighted_average_interval
    rw [if_neg (by simp)]
    have hst : (((some s, none) :: l).map Prod.fst).reduceOption =
        s :: (l.map Prod.fst).reduceOption := by
      simp [List.reduceOption_cons_of_some]
    have hen : (((some s, none) :: l).map Prod.snd).reduceOption =
        (l.map Prod.snd).reduceOption := by
      simp [List.reduceOption_cons_of_none]
    rw [hst, hen, if_neg]
    push_neg
    exact ⟨List.cons_ne_nil _ _, hl⟩
  · intro e l hl
    unfold calculate_weighted_average_interval
    rw [if_neg (by simp)]
    have hst : (((none, some e) :: l).map Prod.fst).reduceOption =
        (l.map Prod.fst).reduceOption := by
      simp [List.reduceOption_cons_of_none]
    have hen : (((none, some e) :: l).map Prod.snd).reduceOption =
        e :: (l.map Prod.snd).reduceOption := by
      simp [List.reduceOption_cons_of_some]
    rw [hst, hen, if_neg]
    push_neg
    exact ⟨hl, List.cons_ne_nil _ _⟩

/-- C2, witness: the amended theorem applied to the concrete list
`[(5, None), (None, 8)]`. -/
theorem C2_bounds_filtered_independently_witness :
    calculate_weighted_average_interval [(some 5, none), (none, some 8)] = (5, 8) := by
  have h := C2_bounds_filtered_independently.2.1 5 [(none, some 8)]
    (by simp [List.reduceOption])
  simp [List.reduceOption] at h
  rw [h]
  rw [round2_of_mul_eq (npMean [5]) 500 (by norm_num [npMean]),
    round2_of_mul_eq (npMean [8]) 800 (by norm_num [npMean])]
  norm_num

/-! ## C3: default interval and plain mean -/

/-- C3, counterexample.  `[(5, None), (None, 6)]` contains no valid entry
(each is missing a bound — `specDiscardInvalid` leaves nothing), yet the
source returns `(5.0, 6.0)`, not the claimed fixed default `(5.5, 6.5)`. -/
theorem C3_default_on_no_valid_entries_refuted :
    specDiscardInvalid [(some 5, none), (none, some 6)] = [] ∧
    calculate_weighted_average_interval [(some 5, none), (none, some 6)] = (5, 6) ∧
    ((5 : ℚ), (6 : ℚ)) ≠ (11/2, 13/2) := by
  refine ⟨by simp [specDiscardInvalid], ?_, by norm_num⟩
  simp only [calculate_weighted_average_interval, npMean, List.reduceOption]
  simp
  rw [round2_of_mul_eq 5 500 (by norm_num), round2_of_mul_eq 6 600 (by norm_num)]
  norm_num

/-- C3, amended.  The aggregator returns the fixed default `(5.5, 6.5)` on
an empty list, and whenever no start bound is present or no end bound is
present (so in particular on a list of entirely absent entries); on a list
of fully valid pairs it returns the arithmetic mean of the starts and,
independently, of the ends, each rounded to 2 decimal places, e.g.
`(5,6)` and `(6,7)` give `(5.5, 6.5)`. -/
theorem C3_default_and_mean :
    calculate_weighted_average_interval [] = (11/2, 13/2) ∧
    (∀ l : List (Option ℚ × Option ℚ),
      (l.map Prod.fst).reduceOption = [] ∨ (l.map Prod.snd).reduceOption = [] →
      calculate_weighted_average_interval l = (11/2, 13/2)) ∧
    (∀ vals : List (ℚ × ℚ), vals ≠ [] →
      calculate_weighted_average_interval (vals.map fun q => (some q.1, some q.2)) =
        (round2 (npMean (vals.map Prod.fst)), round2 (npMean (vals.map Prod.snd)))) ∧
    calculate_weighted_average_interval [(some 5, some 6), (some 6, some 7)]
      = (11/2, 13/2) := by
  refine ⟨by norm_num [calculate_weighted_average_interval], ?_, ?_, ?_⟩
  · intro l hl
    by_cases h : l = []
    · rw [h]
      norm_num [calculate_weighted_average_interval]
    · unfold calculate_weighted_average_interval
      rw [if_neg h, if_pos hl]
  · intro vals hv
    unfold calculate_weighted_average_interval
    have hst : ((vals.map fun q : ℚ × ℚ => (some q.1, some q.2)).map Prod.fst).reduceOption
        = vals.map Prod.fst := by
      rw [List.map_map]
      exact reduceOption_map_some Prod.fst vals
    have hen : ((vals.map fun q : ℚ × ℚ => (some q.1, some q.2)).map Prod.snd).reduceOption
        = vals.map Prod.snd := by
      rw [List.map_map]
      exact reduceOption_map_some Prod.snd vals
    rw [if_neg (by simpa using hv), hst, hen, if_neg]
    push_neg
    constructor <;> simpa using hv
  · simp only [calculate_weighted_average_interval, npMean, List.reduceOption]
    simp
    norm_num
    rw [round2_of_mul_eq (11/2) 550 (by norm_num), round2_of_mul_eq (13/2) 650 (by norm_num)]
    norm_num

/-- C3, witness: the amended theorem's mean clause applied to the pairs
`[(5,6), (6,7)]`. -/
theorem C3_default_and_mean_witness :
    calculate_weighted_average_interval
      ([((5:ℚ), (6:ℚ)), (6, 7)].map fun q => (some q.1, some q.2)) = (11/2, 13/2) := by
  rw [C3_default_and_mean.2.2.1 [((5:ℚ), (6:ℚ)), (6, 7)] (by simp)]
  rw [round2_of_mul_eq (npMean ([((5:ℚ), (6:ℚ)), (6, 7)].map Prod.fst)) 550
      (by norm_num [npMean]),
    round2_of_mul_eq (npMean ([((5:ℚ), (6:ℚ)), (6, 7)].map Prod.snd)) 650
      (by norm_num [npMean])]
  norm_num

/-! ## C6: the excise step's cut points and length identity -/

/-- Modelled from the spec: "the number of samples in (a, b)" at the
buffer's native sample rate — the sample-accurate width of the interval,
used only to compare the spec's words with the source's cut points. -/
def specSampleCount (s e : ℚ) (rate : ℕ) : ℚ := (e - s) * rate

/-- C6, counterexample.  Two failures of sample accuracy.  At 2000 Hz the
interval `(0, 1/2000)` spans exactly one sample, but the source converts
the bounds with `int(t * 1000)` — whole milliseconds — so both cut points
collapse to millisecond 0 and nothing is excised: the 8-sample buffer
keeps all 8 samples instead of the claimed `8 - 1`.  And pydub resolves
the open-ended `audio[end_ms:]` through its rounded millisecond length,
dropping a sub-millisecond tail: an 8-sample buffer at 1500 Hz
(`len()` = 5 ms) excised over `(2 ms, 4 ms)` keeps `3 + (7 - 6) = 4`
samples, not the claimed `8 - 3 = 5`. -/
theorem C6_sample_accurate_cut_refuted :
    ((exciseInterval ⟨2000, List.replicate 8 0⟩ 0 (1/2000)).data.length = 8 ∧
      specSampleCount 0 (1/2000) 2000 = 1 ∧
      ((8 : ℚ) ≠ 8 - specSampleCount 0 (1/2000) 2000)) ∧
    ((exciseInterval ⟨1500, List.replicate 8 0⟩ (1/500) (1/250)).data.length = 4 ∧
      specSampleCount (1/500) (1/250) 1500 = 3 ∧
      (4 : ℕ) ≠ 8 - 3) := by
  constructor
  · refine ⟨?_, by norm_num [specSampleCount], by norm_num [specSampleCount]⟩
    have hl : lenMs ⟨2000, List.replicate 8 (0:ℚ)⟩ = 4 :=
      lenMs_exact _ 4 (by norm_num) (by simp)
    have ht0 : (pyTrunc ((0:ℚ) * 1000)).toNat = 0 := by norm_num [pyTrunc]
    have hth : (pyTrunc ((1/2000 : ℚ) * 1000)).toNat = 0 := by norm_num [pyTrunc]
    simp only [exciseInterval, ht0, hth, concatSeg, sliceTo, sliceFrom, sliceMs,
      List.length_append, sliceFrames_length, hl, msToFrame]
    norm_num [Nat.min_def]
  · refine ⟨?_, by norm_num [specSampleCount], by norm_num⟩
    have hl : lenMs ⟨1500, List.replicate 8 (0:ℚ)⟩ = 5 := by
      unfold lenMs
      simp only [List.length_replicate]
      have h : pyRound (1000 * ((8 : ℕ) : ℚ) / ((1500 : ℕ) : ℚ)) = 5 := by
        unfold pyRound
        rw [if_neg (by norm_num), round_eq]
        norm_num
      rw [h]
      rfl
    have ht1 : (pyTrunc ((1/500 : ℚ) * 1000)).toNat = 2 := by
      have h : pyTrunc ((1/500 : ℚ) * 1000) = 2 := by norm_num [pyTrunc]
      rw [h]
      rfl
    have ht2 : (pyTrunc ((1/250 : ℚ) * 1000)).toNat = 4 := by
      have h : pyTrunc ((1/250 : ℚ) * 1000) = 4 := by norm_num [pyTrunc]
      rw [h]
      rfl
    simp only [exciseInterval, ht1, ht2, concatSeg, sliceTo, sliceFrom, sliceMs,
      List.length_append, sliceFrames_length, hl, msToFrame, List.length_replicate]
    norm_num [Nat.min_def]

/-- C6, amended.  The excise step converts the interval bounds to whole
milliseconds (`int(t * 1000)`); pydub resolves those positions — and the
open tail of `audio[end_ms:]` — through its rounded millisecond length, so
for every interval that is ordered and within the buffer's duration the
concatenation has exactly `f(len_ms) - (f(end_ms) - f(start_ms))` samples,
where `f` maps milliseconds to frame indices at the native rate and
`len_ms` is the buffer's rounded millisecond length.  The cut points are
millisecond-accurate, not sample-accurate, and `f(len_ms)` need not equal
the buffer's sample count. -/
theorem C6_excise_length (a : AudioSegment) (s e : ℚ) (hs : 0 ≤ s) (hse : s ≤ e)
    (hdur : e * a.frameRate ≤ (a.data.length : ℚ)) :
    (exciseInterval a s e).data.length =
      msToFrame a.frameRate (lenMs a) -
        (msToFrame a.frameRate (pyTrunc (e * 1000)).toNat -
          msToFrame a.frameRate (pyTrunc (s * 1000)).toNat) := by
  have he : 0 ≤ e := hs.trans hse
  have hts : pyTrunc (s * 1000) = ⌊s * 1000⌋ := if_pos (by positivity)
  have hte : pyTrunc (e * 1000) = ⌊e * 1000⌋ := if_pos (by positivity)
  set sms := (pyTrunc (s * 1000)).toNat with hsms
  set ems := (pyTrunc (e * 1000)).toNat with hems
  have hmsle : sms ≤ ems := by
    rw [hsms, hems, hts, hte]
    exact Int.toNat_le_toNat (Int.floor_le_floor (by linarith))
  rcases Nat.eq_zero_or_pos a.frameRate with h0 | h0
  · -- degenerate 0 Hz rate: every millisecond maps to frame 0
    have hms : ∀ m, msToFrame a.frameRate m = 0 := by
      intro m
      simp [msToFrame, h0]
    show (concatSeg (sliceTo a sms) (sliceFrom a ems)).data.length = _
    simp [concatSeg, sliceTo, sliceFrom, sliceMs, List.length_append,
      sliceFrames_length, hms]
  · -- the end cut in milliseconds is at most the reported length
    have hlenms : ems ≤ lenMs a := by
      rw [hems, hte]
      have h1 : ⌊e * 1000⌋ ≤ ⌊1000 * (a.data.length : ℚ) / (a.frameRate : ℚ)⌋ := by
        apply Int.floor_le_floor
        rw [le_div_iff₀ (by exact_mod_cast h0)]
        nlinarith
      exact Int.toNat_le_toNat (h1.trans (floor_le_pyRound _))
    have hfmono : msToFrame a.frameRate sms ≤ msToFrame a.frameRate ems :=
      Nat.div_le_div_right (Nat.mul_le_mul_right _ hmsle)
    have hfmono2 : msToFrame a.frameRate ems ≤ msToFrame a.frameRate (lenMs a) :=
      Nat.div_le_div_right (Nat.mul_le_mul_right _ hlenms)
    have hminS : min sms (lenMs a) = sms := min_eq_left (hmsle.trans hlenms)
    have hminE : min ems (lenMs a) = ems := min_eq_left hlenms
    have hz : msToFrame a.frameRate 0 = 0 := by simp [msToFrame]
    show (concatSeg (sliceTo a sms) (sliceFrom a ems)).data.length = _
    simp only [concatSeg, sliceTo, sliceFrom, sliceMs, List.length_append,
      sliceFrames_length, hminS, hminE, Nat.zero_min, min_self, hz]
    omega

/-- C6, witness: the amended excise-length identity at a 10 Hz, 120-sample
(12 second) buffer with the interval `(5, 6)`: the cut points are frames
50 and 60 and `f(len_ms) = 120`, so the cropped buffer keeps `120 - 10`
samples. -/
theorem C6_excise_length_witness :
    (exciseInterval ⟨10, List.replicate 120 0⟩ 5 6).data.length = 110 := by
  have h := C6_excise_length ⟨10, List.replicate 120 0⟩ 5 6 (by norm_num) (by norm_num)
    (by simp; norm_num)
  rw [h]
  have hl : lenMs ⟨10, List.replicate 120 (0:ℚ)⟩ = 12000 :=
    lenMs_exact _ 12000 (by norm_num) (by simp)
  rw [hl]
  norm_num [msToFrame, pyTrunc]
  decide

/-! ## C7: the halving step and the millisecond-quantized buffer -/

/-- C7, counterexample.  The halves' sample counts need not sum to the
post-excision buffer's sample count: pydub's open-ended `cropped[mid:]`
resolves through the rounded millisecond length, so a 5-sample buffer at
1500 Hz (`len()` = 3 ms, midpoint 1 ms) splits into halves of 1 and 3
samples — 4 in total, and the buffer's final sample lands in neither
half.  (The same tail-dropping makes a 22051-sample buffer at the app's
canonical 22050 Hz split into 11025 + 11025 = 22050 samples.) -/
theorem C7_exact_partition_refuted :
    (⟨1500, List.replicate 5 0⟩ : AudioSegment).data.length = 5 ∧
    (splitHalves ⟨1500, List.replicate 5 0⟩).1.data.length = 1 ∧
    (splitHalves ⟨1500, List.replicate 5 0⟩).2.data.length = 3 ∧
    (1 + 3 : ℕ) ≠ 5 := by
  have hl : lenMs ⟨1500, List.replicate 5 (0:ℚ)⟩ = 3 := by
    unfold lenMs
    simp only [List.length_replicate]
    have h : pyRound (1000 * ((5 : ℕ) : ℚ) / ((1500 : ℕ) : ℚ)) = 3 := by
      unfold pyRound
      rw [if_neg (by norm_num), round_eq]
      norm_num
    rw [h]
    rfl
  refine ⟨by simp, ?_, ?_, by norm_num⟩
  · simp only [splitHalves, sliceTo, sliceMs, sliceFrames_length, hl, msToFrame]
    norm_num [Nat.min_def]
  · simp only [splitHalves, sliceFrom, sliceMs, sliceFrames_length, hl, msToFrame]
    norm_num [Nat.min_def]

/-- C7, amended.  `mid_point = len(cropped) // 2` is the floor half of the
rounded millisecond length; the first half spans the frames `[0, f(mid))`
and the second the frames `[f(mid), f(len_ms))`, so the halves are
contiguous and non-overlapping and their sample counts always sum to
`f(len_ms)` — the millisecond-quantized sample count, which can drop the
buffer's sub-millisecond tail (or pad silence past it) and therefore need
not equal the post-excision sample count.  When `f(len_ms)` is within the
stored frames the two halves reassemble exactly to the first `f(len_ms)`
samples, and in the millisecond unit used for the halving the second span
`[mid, len)` exceeds `[0, mid)` by exactly `len % 2` — the odd leftover
unit goes to the second half. -/
theorem C7_halves_partition (c : AudioSegment) :
    (splitHalves c).1.data.length = msToFrame c.frameRate (lenMs c / 2) ∧
    (splitHalves c).2.data.length
      = msToFrame c.frameRate (lenMs c) - msToFrame c.frameRate (lenMs c / 2) ∧
    (splitHalves c).1.data.length + (splitHalves c).2.data.length
      = msToFrame c.frameRate (lenMs c) ∧
    (msToFrame c.frameRate (lenMs c) ≤ c.data.length →
      (splitHalves c).1.data ++ (splitHalves c).2.data
        = c.data.take (msToFrame c.frameRate (lenMs c))) ∧
    lenMs c / 2 + (lenMs c - lenMs c / 2) = lenMs c ∧
    (lenMs c - lenMs c / 2) - lenMs c / 2 = lenMs c % 2 := by
  have hmid : min (lenMs c / 2) (lenMs c) = lenMs c / 2 :=
    min_eq_left (Nat.div_le_self _ _)
  have hmono : msToFrame c.frameRate (lenMs c / 2) ≤ msToFrame c.frameRate (lenMs c) :=
    Nat.div_le_div_right (Nat.mul_le_mul_right _ (Nat.div_le_self _ _))
  have hz : msToFrame c.frameRate 0 = 0 := by simp [msToFrame]
  have h1 : (splitHalves c).1.data.length = msToFrame c.frameRate (lenMs c / 2) := by
    simp only [splitHalves, sliceTo, sliceMs, sliceFrames_length, hmid, Nat.zero_min, hz]
    omega
  have h2 : (splitHalves c).2.data.length
      = msToFrame c.frameRate (lenMs c) - msToFrame c.frameRate (lenMs c / 2) := by
    simp only [splitHalves, sliceFrom, sliceMs, sliceFrames_length, hmid, min_self]
  refine ⟨h1, h2, by rw [h1, h2]; omega, ?_, by omega, by omega⟩
  intro hfit
  have e1 : (splitHalves c).1.data = c.data.take (msToFrame c.frameRate (lenMs c / 2)) := by
    simp only [splitHalves, sliceTo, sliceMs, hmid, Nat.zero_min, hz]
    rw [sliceFrames_of_le _ _ _ (hmono.trans hfit)]
    simp
  have e2 : (splitHalves c).2.data
      = (c.data.take (msToFrame c.frameRate (lenMs c))).drop
          (msToFrame c.frameRate (lenMs c / 2)) := by
    simp only [splitHalves, sliceFrom, sliceMs, hmid, min_self]
    rw [sliceFrames_of_le _ _ _ hfit]
  rw [e1, e2]
  have ht : (c.data.take (msToFrame c.frameRate (lenMs c))).take
      (msToFrame c.frameRate (lenMs c / 2))
      = c.data.take (msToFrame c.frameRate (lenMs c / 2)) := by
    rw [List.take_take, min_eq_left hmono]
  rw [← ht, List.take_append_drop]

/-- C7, witness: the amended halving theorem at a 1000 Hz, 4-sample buffer
(a 4 ms duration, exactly representable): halves of 2 and 2 samples that
reassemble to the whole buffer. -/
theorem C7_halves_partition_witness :
    (splitHalves ⟨1000, List.replicate 4 0⟩).1.data.length = 2 ∧
    (splitHalves ⟨1000, List.replicate 4 0⟩).2.data.length = 2 ∧
    (splitHalves ⟨1000, List.replicate 4 0⟩).1.data ++
        (splitHalves ⟨1000, List.replicate 4 0⟩).2.data
      = List.replicate 4 (0:ℚ) := by
  obtain ⟨h1, h2, -, h4, -, -⟩ := C7_halves_partition ⟨1000, List.replicate 4 0⟩
  have hl : lenMs ⟨1000, List.replicate 4 (0:ℚ)⟩ = 4 :=
    lenMs_exact _ 4 (by norm_num) (by simp)
  rw [hl] at h1 h2 h4
  norm_num [msToFrame] at h1 h2 h4
  exact ⟨h1, h2, h4⟩

/-! ## C1: the Segment Splitter performs no interval validation -/

/-- C1, counterexample.  The splitter accepts the inverted interval
`(7.0, 5.0)` on an 8-second buffer: no rejection occurs, both halves are
exported and the function reports success — indeed `audio[:7000]`
and `audio[5000:]` overlap, so the "cropped" result duplicates the span
between 5 s and 7 s (10 output samples from 8 input samples). -/
theorem C1_inverted_interval_accepted :
    crop_and_split_audio ['x', '.', 'w', 'a', 'v'] none
        (some ⟨1, [1, 2, 3, 4, 5, 6, 7, 8]⟩) 7 5 true =
      .success ⟨1, [1, 2, 3, 4, 5]⟩ ⟨1, [6, 7, 6, 7, 8]⟩ := by
  have hmp3 : pyEndsWith ['x', '.', 'w', 'a', 'v'] mp3Suffix = false := by decide
  have h7 : (pyTrunc ((7 : ℚ) * 1000)).toNat = 7000 := by
    have h : pyTrunc ((7 : ℚ) * 1000) = 7000 := by norm_num [pyTrunc]
    rw [h]
    rfl
  have h5 : (pyTrunc ((5 : ℚ) * 1000)).toNat = 5000 := by
    have h : pyTrunc ((5 : ℚ) * 1000) = 5000 := by norm_num [pyTrunc]
    rw [h]
    rfl
  have hl8 : lenMs ⟨1, [1, 2, 3, 4, 5, 6, 7, 8]⟩ = 8000 :=
    lenMs_exact _ 8000 (by norm_num) (by simp)
  have hexc : exciseInterval ⟨1, [1, 2, 3, 4, 5, 6, 7, 8]⟩ 7 5
      = ⟨1, [1, 2, 3, 4, 5, 6, 7, 6, 7, 8]⟩ := by
    unfold exciseInterval
    rw [h7, h5]
    norm_num [sliceTo, sliceFrom, sliceMs, sliceFrames, concatSeg, msToFrame, hl8,
      Nat.min_def]
  have hl10 : lenMs ⟨1, [1, 2, 3, 4, 5, 6, 7, 6, 7, 8]⟩ = 10000 :=
    lenMs_exact _ 10000 (by norm_num) (by simp)
  have hsplit : splitHalves ⟨1, [1, 2, 3, 4, 5, 6, 7, 6, 7, 8]⟩
      = (⟨1, [1, 2, 3, 4, 5]⟩, ⟨1, [6, 7, 6, 7, 8]⟩) := by
    unfold splitHalves
    norm_num [sliceTo, sliceFrom, sliceMs, sliceFrames, msToFrame, hl10, Nat.min_def]
  unfold crop_and_split_audio
  simp [hmp3, hexc, hsplit]

/-- C1, amended.  `crop_and_split_audio` validates nothing: whenever the
selected decoder yields a buffer and the exports succeed, every interval —
inverted or out of range included — is accepted, the excise-and-halve
pipeline runs, and the function returns success; it never raises an
interval-range error and out-of-range bounds are silently clamped by the
slicing itself. -/
theorem C1_no_validation (audio_path : PyStr) (mp3Audio wavAudio : Option AudioSegment)
    (audio : AudioSegment) (s e : ℚ)
    (hdec : (if pyEndsWith audio_path mp3Suffix then mp3Audio else wavAudio) = some audio) :
    crop_and_split_audio audio_path mp3Audio wavAudio s e true =
      .success (splitHalves (exciseInterval audio s e)).1
        (splitHalves (exciseInterval audio s e)).2 := by
  unfold crop_and_split_audio
  rw [hdec]
  rfl

/-- C1, witness: the no-validation theorem applied to a wav path, a
decoded 2-sample buffer and the out-of-range inverted interval `(9, 1)`. -/
theorem C1_no_validation_witness :
    crop_and_split_audio ['y', '.', 'w', 'a', 'v'] none (some ⟨1, [1, 2]⟩) 9 1 true =
      .success (splitHalves (exciseInterval ⟨1, [1, 2]⟩ 9 1)).1
        (splitHalves (exciseInterval ⟨1, [1, 2]⟩ 9 1)).2 :=
  C1_no_validation ['y', '.', 'w', 'a', 'v'] none (some ⟨1, [1, 2]⟩) ⟨1, [1, 2]⟩ 9 1
    (by simp [show pyEndsWith ['y', '.', 'w', 'a', 'v'] mp3Suffix = false from by decide])

/-! ## C4, C5, C8: Click Detector properties -/

theorem clampStart_bounds (d : ℚ) : 9/2 ≤ clampStart d ∧ clampStart d ≤ 6 := by
  unfold clampStart
  exact ⟨le_max_left _ _, max_le (by norm_num) (min_le_right _ _)⟩

theorem clampEnd_bounds (s d : ℚ) (hs : s ≤ 6) :
    s + 1/2 ≤ clampEnd s d ∧ clampEnd s d ≤ 15/2 := by
  unfold clampEnd
  exact ⟨le_max_left _ _, max_le (by linarith) (min_le_right _ _)⟩

/-- C4, counterexample.  The clamping to `[4.5, 7.5]` happens only on the
contour path; when `findContours` comes back empty the source returns the
coarse window itself, whatever it is: with window `(1, 9)` the detector
returns `(1, 9)`, and `9` is outside `[4.5, 7.5]`. -/
theorem C4_arbitrary_window_clamping_refuted :
    detect_switch_noise (fun _ => CvResult.found []) [[0]] [0, 2, 9] 1 9 = some (1, 9) ∧
    ¬((9 : ℚ) ≤ 15/2) := by
  constructor
  · have h1 : argminAbs 1 [0, 2, 9] = 0 := by norm_num [argminAbs, argminAbsGo]
    have h9 : argminAbs 9 [0, 2, 9] = 2 := by norm_num [argminAbs, argminAbsGo]
    simp [detect_switch_noise, h1, h9]
  · norm_num

/-- C4, amended.  With the default coarse window `(5.0, 7.0)` — the only
window the upload handler ever passes — every numeric result of
`detect_switch_noise` satisfies the claim, over every spectrogram, time
axis and OpenCV outcome: the start is strictly below the end, the start
lies in `[4.5, 6]`, and the end lies in `[start + 0.5, 7.5]` (hence both
bounds lie in `[4.5, 7.5]`).  For arbitrary windows the fallback paths
return the window unclamped. -/
theorem clamped_pair_bounds (ds de : ℚ) :
    clampStart ds < clampEnd (clampStart ds) de ∧
    9/2 ≤ clampStart ds ∧ clampStart ds ≤ 6 ∧
    clampStart ds + 1/2 ≤ clampEnd (clampStart ds) de ∧
    clampEnd (clampStart ds) de ≤ 15/2 := by
  obtain ⟨ha, hb⟩ := clampStart_bounds ds
  obtain ⟨hc, hd⟩ := clampEnd_bounds (clampStart ds) de hb
  exact ⟨by linarith, ha, hb, hc, hd⟩

theorem C4_default_window_clamped (cv : List (List ℚ) → CvResult)
    (mel : List (List ℚ)) (tf : List ℚ) (s e : ℚ)
    (h : detect_switch_noise cv mel tf 5 7 = some (s, e)) :
    s < e ∧ 9/2 ≤ s ∧ s ≤ 6 ∧ s + 1/2 ≤ e ∧ e ≤ 15/2 := by
  cases tf with
  | nil =>
      simp only [detect_switch_noise, Option.some.injEq, Prod.mk.injEq] at h
      obtain ⟨rfl, rfl⟩ := h
      norm_num
  | cons tf0 tfrest =>
      simp only [detect_switch_noise] at h
      split at h
      · exact absurd h (by simp)
      · split at h
        · simp only [Option.some.injEq, Prod.mk.injEq] at h
          obtain ⟨rfl, rfl⟩ := h
          norm_num
        · simp only [Option.some.injEq, Prod.mk.injEq] at h
          obtain ⟨rfl, rfl⟩ := h
          norm_num
        · split at h
          · simp only [Option.some.injEq, Prod.mk.injEq] at h
            obtain ⟨rfl, rfl⟩ := h
            exact clamped_pair_bounds _ _
          · simp only [Option.some.injEq, Prod.mk.injEq] at h
            obtain ⟨rfl, rfl⟩ := h
            norm_num

/-- C4, witness: the amended theorem applied to a run where `findContours`
is empty, so the default window `(5, 7)` itself is returned. -/
theorem C4_default_window_clamped_witness :
    detect_switch_noise (fun _ => CvResult.found []) [[0]] [4, 6, 8] 5 7 = some (5, 7) ∧
    (5 : ℚ) < 7 ∧ 9/2 ≤ (5 : ℚ) ∧ (5 : ℚ) ≤ 6 ∧ (5 : ℚ) + 1/2 ≤ 7 ∧ (7 : ℚ) ≤ 15/2 := by
  have h5 : argminAbs 5 [4, 6, 8] = 0 := by norm_num [argminAbs, argminAbsGo]
  have h7 : argminAbs 7 [4, 6, 8] = 1 := by norm_num [argminAbs, argminAbsGo]
  have hdet : detect_switch_noise (fun _ => CvResult.found []) [[0]] [4, 6, 8] 5 7
      = some (5, 7) := by
    simp [detect_switch_noise, h5, h7]
  exact ⟨hdet, C4_default_window_clamped (fun _ => CvResult.found []) [[0]] [4, 6, 8] 5 7 hdet⟩

/-- C5.  First conjunct (matches the claim): a coarse window whose bounds
resolve to frame indices with the start index not strictly before the end
index makes `detect_switch_noise` return the `(None, None)` "no detection"
result.  Second conjunct (refutes the claim's caller half): on a file whose
time axis `[0, 2]` resolves both default-window bounds to the same index,
the upload handler stores `(None, None)` — not the coarse window `(5, 7)` —
as the detected interval, and then `round(None, 2)` raises `TypeError`,
aborting the request instead of falling back. -/
theorem C5_degenerate_window_and_caller :
    (∀ (cv : List (List ℚ) → CvResult) (mel : List (List ℚ)) (tf0 : ℚ)
        (tfrest : List ℚ) (s e : ℚ),
      argminAbs e (tf0 :: tfrest) ≤ argminAbs s (tf0 :: tfrest) →
      detect_switch_noise cv mel (tf0 :: tfrest) s e = none) ∧
    upload_files (fun _ => CvResult.fail) ['t', 's', '_'] ⟨[], [], [], []⟩
        [⟨['b', '.', 'w', 'a', 'v'], some ([[0]], [0, 2], 22050)⟩] =
      (⟨[(['t', 's', '_', 'b', '.', 'w', 'a', 'v'],
          ⟨['b', '.', 'w', 'a', 'v'], ['t', 's', '_', 'b', '.', 'w', 'a', 'v'],
           ['u', 'p', 'l', 'o', 'a', 'd', 's', '/', 't', 's', '_', 'b', '.', 'w', 'a', 'v'],
           none, 4⟩)],
        [(['t', 's', '_', 'b', '.', 'w', 'a', 'v'], ⟨[[0]], [0, 2], 22050⟩)],
        [['t', 's', '_', 'b', '.', 'w', 'a', 'v']],
        [['t', 's', '_', 'b', '.', 'w', 'a', 'v', '.', 'p', 'n', 'g']]⟩,
       .error .typeError) := by
  constructor
  · intro cv mel tf0 tfrest s e h
    simp only [detect_switch_noise]
    rw [if_pos h]
  · have hallow : allowed_file ['b', '.', 'w', 'a', 'v'] = true := by decide
    have h5 : argminAbs 5 [0, 2] = 1 := by norm_num [argminAbs, argminAbsGo]
    have h7 : argminAbs 7 [0, 2] = 1 := by norm_num [argminAbs, argminAbsGo]
    have hdet : detect_switch_noise (fun _ => CvResult.fail) [[0]] [0, 2] 5 7 = none := by
      simp [detect_switch_noise, h5, h7]
    simp only [upload_files, processFiles, hallow, hdet, durationOf, uploadsDir, pngSuffix]
    norm_num

/-- C5, witness: the degenerate-window conjunct applied to the time axis
`[0, 2]`, where both default bounds resolve to frame index 1. -/
theorem C5_degenerate_window_witness :
    detect_switch_noise (fun _ => CvResult.fail) [[0]] [0, 2] 5 7 = none := by
  apply C5_degenerate_window_and_caller.1
  have h5 : argminAbs 5 [0, 2] = 1 := by norm_num [argminAbs, argminAbsGo]
  have h7 : argminAbs 7 [0, 2] = 1 := by norm_num [argminAbs, argminAbsGo]
  rw [h5, h7]

/-- C8.  Every exceptional path inside `detect_switch_noise`'s `try` block
is caught and turned into the original coarse window `(start_time,
end_time)`: `np.argmin` raising on an empty time axis, any exception from
the OpenCV image-processing chain, and the `IndexError` from mapping a
bounding box beyond the end of `time_frames`.  No exception propagates:
the embedded detector is a total function. -/
theorem C8_exceptions_return_window :
    (∀ (cv : List (List ℚ) → CvResult) (mel : List (List ℚ)) (s e : ℚ),
      detect_switch_noise cv mel [] s e = some (s, e)) ∧
    (∀ (cv : List (List ℚ) → CvResult) (mel : List (List ℚ)) (tf0 : ℚ)
        (tfrest : List ℚ) (s e : ℚ),
      argminAbs s (tf0 :: tfrest) < argminAbs e (tf0 :: tfrest) →
      cv (roiOf mel (argminAbs s (tf0 :: tfrest)) (argminAbs e (tf0 :: tfrest)))
        = CvResult.fail →
      detect_switch_noise cv mel (tf0 :: tfrest) s e = some (s, e)) ∧
    (∀ (cv : List (List ℚ) → CvResult) (mel : List (List ℚ)) (tf0 : ℚ)
        (tfrest : List ℚ) (s e : ℚ) (c : Contour) (cs : List Contour),
      argminAbs s (tf0 :: tfrest) < argminAbs e (tf0 :: tfrest) →
      cv (roiOf mel (argminAbs s (tf0 :: tfrest)) (argminAbs e (tf0 :: tfrest)))
        = CvResult.found (c :: cs) →
      ¬(argminAbs s (tf0 :: tfrest) + (maxByArea c cs).x + (maxByArea c cs).w
          < (tf0 :: tfrest).length) →
      detect_switch_noise cv mel (tf0 :: tfrest) s e = some (s, e)) := by
  refine ⟨fun cv mel s e => rfl, ?_, ?_⟩
  · intro cv mel tf0 tfrest s e hlt hcv
    simp only [detect_switch_noise]
    rw [if_neg (not_le.mpr hlt), hcv]
  · intro cv mel tf0 tfrest s e c cs hlt hcv hidx
    simp only [detect_switch_noise]
    rw [if_neg (not_le.mpr hlt), hcv]
    exact dif_neg hidx

/-- C8, witness: the image-chain-exception conjunct applied to an oracle
that always raises, on the time axis `[4, 6, 8]` with the default window. -/
theorem C8_exceptions_return_window_witness :
    detect_switch_noise (fun _ => CvResult.fail) [[0]] [4, 6, 8] 5 7 = some (5, 7) := by
  apply C8_exceptions_return_window.2.1
  · have h5 : argminAbs 5 [4, 6, 8] = 0 := by norm_num [argminAbs, argminAbsGo]
    have h7 : argminAbs 7 [4, 6, 8] = 1 := by norm_num [argminAbs, argminAbsGo]
    rw [h5, h7]
    norm_num
  · rfl

/-! ## C9: batch state is cleared before each successful upload -/

theorem foldl_tally_perm
    (step : (List PyStr × List PyStr) → (PyStr × FileData) → List PyStr × List PyStr)
    (hstep : ∀ acc p, step acc p = (acc.1 ++ [p.2.filename], acc.2) ∨
        step acc p = (acc.1, acc.2 ++ [p.2.filename])) :
    ∀ (l : List (PyStr × FileData)) (acc : List PyStr × List PyStr),
      ((l.foldl step acc).1 ++ (l.foldl step acc).2).Perm
        (acc.1 ++ acc.2 ++ l.map fun p => p.2.filename) := by
  intro l
  induction l with
  | nil =>
      intro acc
      simp
  | cons p l ih =>
      intro acc
      rw [List.foldl_cons, List.map_cons]
      rcases hstep acc p with h | h <;> rw [h] <;>
        refine (ih _).trans (List.perm_iff_count.mpr fun a => ?_) <;>
        · simp only [List.count_append, List.count_cons]
          by_cases hap : p.2.filename = a <;> simp [hap] <;> omega

/-- C9.  First conjunct: once the early guards pass, the entire outcome of
`upload_files` — final state and response, hence also the consensus it
reports and the `batch_data` a later `process_batch` iterates — is
independent of whatever batch state was there before: the state is rebuilt
from scratch (`batch_data = {}`, `spectrogram_cache = {}`, folders wiped)
from this request's files alone, so entries of two batch generations are
never mixed.  Second conjunct: `process_batch` tallies exactly the
filenames of the current `batch_data`, each once. -/
theorem C9_upload_state_independent_of_previous_batch :
    (∀ (cv : List (List ℚ) → CvResult) (ts : PyStr) (st st' : ServerState)
        (files : List UploadFile),
      (files.isEmpty || files.all fun f => f.filename.isEmpty) = false →
      upload_files cv ts st files = upload_files cv ts st' files) ∧
    (∀ (mp3Of wavOf : PyStr → Option AudioSegment) (exportOf : PyStr → Bool)
        (st : ServerState) (s e : ℚ),
      ((process_batch mp3Of wavOf exportOf st s e).1 ++
          (process_batch mp3Of wavOf exportOf st s e).2).Perm
        (st.batch_data.map fun p => p.2.filename)) := by
  constructor
  · intro cv ts st st' files h
    simp only [upload_files, h, Bool.false_eq_true, if_false]
  · intro mp3Of wavOf exportOf st s e
    unfold process_batch
    have h := foldl_tally_perm
      (fun acc p =>
        match crop_and_split_audio p.2.file_path (mp3Of p.2.file_path) (wavOf p.2.file_path)
            s e (exportOf p.2.file_path) with
        | .success _ _ => (acc.1 ++ [p.2.filename], acc.2)
        | .failed => (acc.1, acc.2 ++ [p.2.filename]))
      (fun acc p => by
        cases hc : crop_and_split_audio p.2.file_path (mp3Of p.2.file_path)
            (wavOf p.2.file_path) s e (exportOf p.2.file_path) with
        | success cw acw => exact Or.inl (by simp [hc])
        | failed => exact Or.inr (by simp [hc]))
      st.batch_data ([], [])
    simpa using h

/-- C9, witness: a fresh upload over a polluted prior state equals the same
upload over the empty state. -/
theorem C9_upload_state_independent_witness :
    upload_files (fun _ => CvResult.found []) ['t', 's', '_']
        ⟨[(['o'], ⟨['o'], ['o'], ['o'], none, 0⟩)], [], [['o']], [['o']]⟩
        [⟨['b', '.', 'w', 'a', 'v'], none⟩] =
      upload_files (fun _ => CvResult.found []) ['t', 's', '_'] ⟨[], [], [], []⟩
        [⟨['b', '.', 'w', 'a', 'v'], none⟩] :=
  C9_upload_state_independent_of_previous_batch.1 (fun _ => CvResult.found [])
    ['t', 's', '_'] _ _ [⟨['b', '.', 'w', 'a', 'v'], none⟩] (by rfl)

/-! ## C10: decoder selection by the `.mp3` suffix -/

/-- C10.  `crop_and_split_audio` picks its decoder solely by
`audio_path.endswith('.mp3')`: on an `.mp3` path the result never depends
on the wav decoder, on any other path it never depends on the mp3 decoder;
`.flac` and `.aac` names pass `allowed_file` yet do not end in `.mp3`, so
they are decoded with `AudioSegment.from_wav`; and a raising decoder makes
the function return the failure flag instead of propagating. -/
theorem C10_decoder_chosen_by_mp3_suffix :
    (∀ (p : PyStr) (mp3Audio wav wav' : Option AudioSegment) (s e : ℚ) (ex : Bool),
      pyEndsWith p mp3Suffix = true →
      crop_and_split_audio p mp3Audio wav s e ex
        = crop_and_split_audio p mp3Audio wav' s e ex) ∧
    (∀ (p : PyStr) (mp3Audio mp3' wav : Option AudioSegment) (s e : ℚ) (ex : Bool),
      pyEndsWith p mp3Suffix = false →
      crop_and_split_audio p mp3Audio wav s e ex
        = crop_and_split_audio p mp3' wav s e ex) ∧
    (allowed_file ['c', 'l', 'i', 'p', '.', 'f', 'l', 'a', 'c'] = true ∧
      pyEndsWith ['c', 'l', 'i', 'p', '.', 'f', 'l', 'a', 'c'] mp3Suffix = false) ∧
    (allowed_file ['c', 'l', 'i', 'p', '.', 'a', 'a', 'c'] = true ∧
      pyEndsWith ['c', 'l', 'i', 'p', '.', 'a', 'a', 'c'] mp3Suffix = false) ∧
    (∀ (p : PyStr) (wav : Option AudioSegment) (s e : ℚ) (ex : Bool),
      pyEndsWith p mp3Suffix = true →
      crop_and_split_audio p none wav s e ex = .failed) ∧
    (∀ (p : PyStr) (mp3Audio : Option AudioSegment) (s e : ℚ) (ex : Bool),
      pyEndsWith p mp3Suffix = false →
      crop_and_split_audio p mp3Audio none s e ex = .failed) := by
  refine ⟨?_, ?_, by decide, by decide, ?_, ?_⟩
  · intro p mp3Audio wav wav' s e ex h
    simp [crop_and_split_audio, h]
  · intro p mp3Audio mp3' wav s e ex h
    simp [crop_and_split_audio, h]
  · intro p wav s e ex h
    simp [crop_and_split_audio, h]
  · intro p mp3Audio s e ex h
    simp [crop_and_split_audio, h]

/-- C10, witness: an `.aac` file is accepted by the upload filter and its
split result is insensitive to the mp3 decoder — it uses the wav loader,
and when that loader raises the function reports failure. -/
theorem C10_decoder_chosen_by_mp3_suffix_witness :
    crop_and_split_audio ['c', 'l', 'i', 'p', '.', 'a', 'a', 'c'] (some ⟨1, [1]⟩) none 1 2 true
        = crop_and_split_audio ['c', 'l', 'i', 'p', '.', 'a', 'a', 'c'] none none 1 2 true ∧
    crop_and_split_audio ['c', 'l', 'i', 'p', '.', 'a', 'a', 'c'] (some ⟨1, [1]⟩) none 1 2 true
        = .failed :=
  ⟨C10_decoder_chosen_by_mp3_suffix.2.1 ['c', 'l', 'i', 'p', '.', 'a', 'a', 'c']
      (some ⟨1, [1]⟩) none none 1 2 true (by decide),
    C10_decoder_chosen_by_mp3_suffix.2.2.2.2.2 ['c', 'l', 'i', 'p', '.', 'a', 'a', 'c']
      (some ⟨1, [1]⟩) 1 2 true (by decide)⟩

end AudioCropper
